import Mathlib

/-!
Verification development for the Chalk object model (`apps/lib/chalk/obj.c`).

The C code is shallowly embedded: every Chalk value is a pure inductive
value, stateful mutators return the updated state explicitly, and the
reference-count side effects a routine performs are returned as an explicit
trace of `addReference` and `releaseReference` events in the order the code
issues them.  Machine allocation is modelled as always succeeding, so the
out-of-memory branches of the C code do not occur in the embedding.
Dictionaries and functions compare by storage address in the C code, so the
`Dict` and `Function` constructors carry an `addr : Nat` field modelling the
object's address; a dictionary value is its entry list together with its
generation counter (its live `Count` field always equals the length of the
entry list, so the count is represented by `entries.length`).
-/

namespace Chalk

/-- A Chalk object (`CHALK_OBJECT` in obj.c).  The kind tags, in declaration
order, are INVALID, null, integer, string, dict, list, function; the
`Invalid` kind is only observed transiently during teardown and is not
modelled.  A `String` stores the owned byte buffer without its terminator
(`String.Size` is `bytes.length`); a `List` stores its slot array, `none`
being an empty hole (a NULL pointer in the C array); a `Dict` stores its
insertion-ordered entry list, generation counter and address; a `Function`
stores its argument-list object, its opaque body and script handles, and its
address. -/
inductive ChalkObject : Type where
  | Null : ChalkObject
  | Integer (value : Int) : ChalkObject
  | String (bytes : List Nat) : ChalkObject
  | Dict (entries : List (ChalkObject × ChalkObject)) (generation : Nat)
      (addr : Nat) : ChalkObject
  | List (slots : List (Option ChalkObject)) : ChalkObject
  | Function (arguments : Option ChalkObject) (body : Nat) (script : Nat)
      (addr : Nat) : ChalkObject

/-- The numeric kind tag of an object (`CHALK_OBJECT_TYPE` enumeration order:
INVALID = 0, null = 1, integer = 2, string = 3, dict = 4, list = 5,
function = 6). -/
def kindTag : ChalkObject → Nat
  | .Null => 1
  | .Integer _ => 2
  | .String _ => 3
  | .Dict _ _ _ => 4
  | .List _ => 5
  | .Function _ _ _ _ => 6

/-- The bytes a C string routine (strlen, strcmp) sees in a string buffer:
the stored bytes up to, and not including, the first embedded zero byte
(the buffer itself is the stored bytes followed by a zero terminator). -/
def cString (bytes : List Nat) : List Nat := bytes.takeWhile (fun b => b ≠ 0)

/-- Byte-wise comparison of two zero-free byte sequences, as strcmp performs
on the terminated buffers, with the result already clamped to -1/0/1 as done
at the call site in `ChalkCompareObjects`. -/
def strcmpAux : List Nat → List Nat → Int
  | [], [] => 0
  | [], _ :: _ => -1
  | _ :: _, [] => 1
  | a :: as, b :: bs => if a < b then -1 else if b < a then 1 else strcmpAux as bs

/-- Comparison of two storage addresses, as the pointer comparison in the
default branch of `ChalkCompareObjects`. -/
def addressCompare (a b : Nat) : Int := if a < b then -1 else if b < a then 1 else 0

mutual

/-- `ChalkCompareObjects`.  Returns `some r` with `r` in -1/0/1.  The value
`none` models the branch where the C code dereferences a NULL element
pointer: comparing two equal-length lists reads `Array[Index]` of both lists
with no hole check, so a hole slot reached during element comparison is a
NULL-pointer dereference (undefined behavior) rather than a result. -/
def ChalkCompareObjects (left right : ChalkObject) : Option Int :=
  if kindTag left < kindTag right then some (-1)
  else if kindTag right < kindTag left then some 1
  else
    match left, right with
    | .Null, .Null => some 0
    | .Integer a, .Integer b =>
        some (if a < b then -1 else if b < a then 1 else 0)
    | .String a, .String b => some (strcmpAux (cString a) (cString b))
    | .Dict _ _ aAddr, .Dict _ _ bAddr => some (addressCompare aAddr bAddr)
    | .List a, .List b =>
        if a.length < b.length then some (-1)
        else if b.length < a.length then some 1
        else compareElements a b
    | .Function _ _ _ aAddr, .Function _ _ _ bAddr =>
        some (addressCompare aAddr bAddr)
    | _, _ => some 0
termination_by sizeOf left

/-- The element loop of the equal-length list branch of
`ChalkCompareObjects`: the first nonzero element comparison is the result,
`some 0` if all element comparisons are zero, and `none` (the modelled NULL
dereference) as soon as either slot at the current index is a hole. -/
def compareElements : List (Option ChalkObject) → List (Option ChalkObject) → Option Int
  | some l :: ls, some r :: rs =>
    match ChalkCompareObjects l r with
    | some 0 => compareElements ls rs
    | result => result
  | _ :: _, _ :: _ => none
  | _, _ => some 0
termination_by ls _ => sizeOf ls

end

/-- A reference-count side effect issued by a routine, in program order:
`addRef o` is a `ChalkObjectAddReference(o)` call and `release o` a
`ChalkObjectReleaseReference(o)` call. -/
inductive RefOp : Type where
  | addRef (obj : ChalkObject) : RefOp
  | release (obj : ChalkObject) : RefOp

/-- POSIX errno value EINVAL (Linux numbering), returned for an invalid
dictionary key kind and by the `get` builtin on a bad object kind. -/
def EINVAL : Int := 22

/-- POSIX errno value ENOMEM (Linux numbering), returned on allocation
failure; allocation always succeeds in this embedding, so no modelled
routine returns it. -/
def ENOMEM : Int := 12

/-- POSIX errno value ERANGE (Linux numbering), returned by `ChalkDictIterate`
when the dictionary generation changed under the iterator. -/
def ERANGE : Int := 34

/-- `ChalkCreateNull`: returns the Null singleton with a reference added. -/
def ChalkCreateNull : ChalkObject × List RefOp :=
  (.Null, [RefOp.addRef .Null])

/-- `ChalkCreateInteger`: a fresh integer object holding the given value. -/
def ChalkCreateInteger (value : Int) : ChalkObject :=
  .Integer value

/-- `ChalkCreateString`: copies `size` bytes of the caller buffer into an
owned buffer of `size + 1` bytes, terminates it, and stores `size` as the
length.  The caller buffer is modelled by its byte list, so the stored bytes
are `initialValue.take size`. -/
def ChalkCreateString (initialValue : List Nat) (size : Nat) : ChalkObject :=
  .String (initialValue.take size)

/-- `ChalkCreateList`: with an initializer array, copies `size` slot
pointers and adds a reference to each non-hole entry; with none, produces
`size` hole slots. -/
def ChalkCreateList (initialValues : Option (List (Option ChalkObject)))
    (size : Nat) : ChalkObject × List RefOp :=
  match initialValues with
  | some values =>
      let slots := values.take size
      (.List slots, slots.filterMap (fun s => s.map RefOp.addRef))
  | none => (.List (List.replicate size none), [])

/-- `ChalkListLookup`: NULL (`none`) if the index is at or past the count or
the slot is a hole, otherwise the element with a reference added. -/
def ChalkListLookup (slots : List (Option ChalkObject)) (index : Nat) :
    Option ChalkObject × List RefOp :=
  if slots.length ≤ index then (none, [])
  else
    match slots.getD index none with
    | some obj => (some obj, [RefOp.addRef obj])
    | none => (none, [])

/-- `ChalkListSetElement`: if the index is at or past the count, reallocates
the array to `index + 1` slots and zero-fills the new tail; then releases
whatever occupies the slot, stores the new object and adds a reference to it
(when it is not NULL).  Reallocation always succeeds in the embedding, so
the returned status is always 0. -/
def ChalkListSetElement (slots : List (Option ChalkObject)) (index : Nat)
    (obj : Option ChalkObject) :
    Int × List (Option ChalkObject) × List RefOp :=
  let grown :=
    if slots.length ≤ index then
      slots ++ List.replicate (index + 1 - slots.length) none
    else slots
  let old := grown.getD index none
  let releaseOps := match old with
    | some o => [RefOp.release o]
    | none => ([] : List RefOp)
  let addOps := match obj with
    | some o => [RefOp.addRef o]
    | none => ([] : List RefOp)
  (0, grown.set index obj, releaseOps ++ addOps)

/-- `ChalkListAdd` (in-place list concatenation): reallocates the left array
to the combined size and copies the right slot pointers into the tail,
adding a reference to each non-hole entry. -/
def ChalkListAdd (leftSlots rightSlots : List (Option ChalkObject)) :
    Int × List (Option ChalkObject) × List RefOp :=
  (0, leftSlots ++ rightSlots,
    rightSlots.filterMap (fun s => s.map RefOp.addRef))

/-- `ChalkDictLookup`: linear scan of the entry list in insertion order,
returning the first entry whose key compares equal to the queried key.  A
`none` comparison result (the modelled hole-slot dereference, impossible for
keys stored through `ChalkDictSetElement`, which are Integer or String kind)
is treated as a non-match. -/
def ChalkDictLookup : List (ChalkObject × ChalkObject) → ChalkObject →
    Option (ChalkObject × ChalkObject)
  | [], _ => none
  | entry :: rest, key =>
    if ChalkCompareObjects entry.1 key = some 0 then some entry
    else ChalkDictLookup rest key

/-- Key-kind guard of `ChalkDictSetElement`:
`(Key->Header.Type != ChalkObjectInteger) &&
 (Key->Header.Type != ChalkObjectString)`. -/
def invalidDictKeyKind : ChalkObject → Bool
  | .Integer _ => false
  | .String _ => false
  | _ => true

/-- Value replacement on the first entry whose key compares equal: the
in-place `Entry->Value = Value` store of `ChalkDictSetElement` on an
existing entry. -/
def dictReplaceValue : List (ChalkObject × ChalkObject) → ChalkObject →
    ChalkObject → List (ChalkObject × ChalkObject)
  | [], _, _ => []
  | entry :: rest, key, value =>
    if ChalkCompareObjects entry.1 key = some 0 then (entry.1, value) :: rest
    else entry :: dictReplaceValue rest key value

/-- `ChalkDictSetElement` on a dictionary payload (entry list and generation
counter; the live count is the entry-list length).  A key of invalid kind is
rejected with EINVAL before anything is touched.  Otherwise, if the key is
absent, a new entry is appended at the tail (`INSERT_BEFORE` of the list
head), a reference is added to the key, and the generation and count are
incremented; whether the entry is new or existing, a reference is added to
the value and the displaced value (if any) is released.  The optional LValue
out-parameter (a stable address of the entry's value slot) is not modelled.
Allocation always succeeds in the embedding, so ENOMEM does not occur. -/
def ChalkDictSetElement (entries : List (ChalkObject × ChalkObject))
    (generation : Nat) (key value : ChalkObject) :
    Int × List (ChalkObject × ChalkObject) × Nat × List RefOp :=
  if invalidDictKeyKind key then (EINVAL, entries, generation, [])
  else
    match ChalkDictLookup entries key with
    | none =>
        (0, entries ++ [(key, value)], generation + 1,
          [RefOp.addRef key, RefOp.addRef value])
    | some entry =>
        (0, dictReplaceValue entries key value, generation,
          [RefOp.addRef value, RefOp.release entry.2])

/-- `ChalkDictAdd` (in-place dictionary merge): calls `ChalkDictSetElement`
on the destination for each source entry in order, stopping at the first
failing status. -/
def ChalkDictAdd (entries : List (ChalkObject × ChalkObject))
    (generation : Nat) :
    List (ChalkObject × ChalkObject) →
    Int × List (ChalkObject × ChalkObject) × Nat
  | [] => (0, entries, generation)
  | (key, value) :: rest =>
    match ChalkDictSetElement entries generation key value with
    | (0, entries2, generation2, _) => ChalkDictAdd entries2 generation2 rest
    | (status, entries2, generation2, _) => (status, entries2, generation2)

/-- The copy loop of `ChalkCreateDict` with a source dictionary: each source
entry is inserted fresh through `ChalkDictSetElement`; a failing insertion
makes `ChalkCreateDict` release the partial dictionary and return NULL
(`none`; the teardown release trace is not modelled). -/
def dictCopyLoop : List (ChalkObject × ChalkObject) →
    List (ChalkObject × ChalkObject) → Nat → List RefOp →
    Option (List (ChalkObject × ChalkObject) × Nat × List RefOp)
  | [], entries, generation, ops => some (entries, generation, ops)
  | (key, value) :: rest, entries, generation, ops =>
    match ChalkDictSetElement entries generation key value with
    | (0, entries2, generation2, ops2) =>
        dictCopyLoop rest entries2 generation2 (ops ++ ops2)
    | _ => none

/-- `ChalkCreateDict`: a fresh empty dictionary (generation 0), into which
the optional source dictionary's entries are inserted one by one. -/
def ChalkCreateDict (source : Option (List (ChalkObject × ChalkObject)))
    (addr : Nat) : Option (ChalkObject × List RefOp) :=
  match source with
  | none => some (.Dict [] 0 addr, [])
  | some sourceEntries =>
      (dictCopyLoop sourceEntries [] 0 []).map
        (fun r => (.Dict r.1 r.2.1 addr, r.2.2))

/-- `ChalkCreateFunction`: stores the argument list with a reference added
and the two borrowed handles without taking ownership. -/
def ChalkCreateFunction (arguments : Option ChalkObject)
    (body script addr : Nat) : ChalkObject × List RefOp :=
  (.Function arguments body script addr,
    match arguments with
    | some a => [RefOp.addRef a]
    | none => [])

/-- `ChalkObjectCopy`: dispatches to the per-kind constructor.  A List copy
is `ChalkCreateList(Array, Count)` (same slot pointers, one reference added
per non-hole element); a Dict copy is `ChalkCreateDict(Source)`.  Fresh
storage for the copied Dict or Function gets address `freshAddr`.  `none` is
the NULL result of a failing copy (only possible for a Dict whose entries
were not inserted through the API). -/
def ChalkObjectCopy (freshAddr : Nat) : ChalkObject →
    Option (ChalkObject × List RefOp)
  | .Null => some ChalkCreateNull
  | .Integer value => some (ChalkCreateInteger value, [])
  | .String bytes => some (ChalkCreateString bytes bytes.length, [])
  | .Dict entries _ _ => ChalkCreateDict (some entries) freshAddr
  | .List slots => some (ChalkCreateList (some slots) slots.length)
  | .Function arguments body script _ =>
      some (ChalkCreateFunction arguments body script freshAddr)

/-- `ChalkObjectGetBooleanValue`: FALSE for Null, nonzero value for Integer,
nonzero stored size for String, nonzero slot count for List, nonempty entry
list for Dict, always TRUE for Function. -/
def ChalkObjectGetBooleanValue : ChalkObject → Bool
  | .Null => false
  | .Integer value => value ≠ 0
  | .String bytes => bytes.length ≠ 0
  | .Dict entries _ _ => !entries.isEmpty
  | .List slots => slots.length ≠ 0
  | .Function _ _ _ _ => true

/-- `CHALK_DICT_ITERATOR`: the next entry to return, modelled as its index
in the entry list (`none` models a NULL `Next` pointer), plus the generation
snapshotted when the iterator was created. -/
structure ChalkDictIterator : Type where
  next : Option Nat
  generation : Nat

/-- `ChalkDictInitializeIterator`: snapshots the head entry (NULL when the
entry list is empty) and the current generation.  The iterator allocation
always succeeds in the embedding. -/
def ChalkDictInitializeIterator (entries : List (ChalkObject × ChalkObject))
    (generation : Nat) : ChalkDictIterator :=
  { next := if entries.isEmpty then none else some 0
    generation := generation }

/-- `ChalkDictIterate`.  The dictionary payload is threaded through
unchanged (the routine never writes to the dictionary).  A generation
mismatch returns ERANGE with the iterator and out-parameter untouched;
otherwise the next entry's key is yielded (NULL key output signals the end)
and the iterator advances to the successor entry or NULL.  The
`entries.get? index = none` branch is unreachable for iterators produced by
`ChalkDictInitializeIterator` and advanced by this routine under matching
generations (in C it would be a wild pointer). -/
def ChalkDictIterate (entries : List (ChalkObject × ChalkObject))
    (generation : Nat) (iterator : ChalkDictIterator) :
    Int × List (ChalkObject × ChalkObject) × Nat × ChalkDictIterator ×
      Option ChalkObject :=
  if iterator.generation ≠ generation then
    (ERANGE, entries, generation, iterator, none)
  else
    match iterator.next with
    | none => (0, entries, generation, iterator, none)
    | some index =>
      match entries.get? index with
      | some entry =>
          let nextIndex :=
            if index + 1 < entries.length then some (index + 1) else none
          (0, entries, generation,
            { next := nextIndex, generation := iterator.generation },
            some entry.1)
      | none =>
          (0, entries, generation,
            { next := none, generation := iterator.generation }, none)

/-- `ChalkFunctionLength` (the `len` builtin), applied to its fetched
`object` argument: String length is computed with `strlen` on the stored
buffer (the bytes before the first embedded zero), List length is the slot
count, Dict length is the live entry count, anything else is 0; the value is
returned as a fresh Integer object with status 0. -/
def ChalkFunctionLength (object : ChalkObject) : Int × Option ChalkObject :=
  let value : Nat :=
    match object with
    | .String bytes => (cString bytes).length
    | .List slots => slots.length
    | .Dict entries _ _ => entries.length
    | _ => 0
  (0, some (ChalkCreateInteger value))

/-- `ChalkFunctionGet` (the `get` builtin), applied to its fetched `object`
and `key` arguments: an object that is neither Dict nor Null kind is
rejected with EINVAL and no return value; a Dict is searched for the key and
a found value is returned with a reference added; otherwise (Null object, or
key absent) the Null singleton is returned with a reference added. -/
def ChalkFunctionGet (object key : ChalkObject) :
    Int × Option ChalkObject × List RefOp :=
  if kindTag object ≠ 4 ∧ kindTag object ≠ 1 then (EINVAL, none, [])
  else
    match object with
    | .Dict entries _ _ =>
      match ChalkDictLookup entries key with
      | some entry => (0, some entry.2, [RefOp.addRef entry.2])
      | none => (0, some ChalkCreateNull.1, ChalkCreateNull.2)
    | _ => (0, some ChalkCreateNull.1, ChalkCreateNull.2)

mutual

/-- Recursive absence of holes: every slot of every list reachable through
list nesting is live.  Non-list kinds have no slots, and Dict and Function
values compare by address without recursing, so only list nesting matters. -/
def holeFree : ChalkObject → Bool
  | .List slots => holeFreeElements slots
  | _ => true
termination_by o => sizeOf o

/-- `holeFree` over a slot array: no slot is a hole and every element is
recursively hole-free. -/
def holeFreeElements : List (Option ChalkObject) → Bool
  | [] => true
  | some o :: rest => holeFree o && holeFreeElements rest
  | none :: _ => false
termination_by ls => sizeOf ls

end

mutual

/-- The sample class of claim C4: Null, Integers, Strings without embedded
zero bytes, and hole-free Lists of such values. -/
def c4Class : ChalkObject → Bool
  | .Null => true
  | .Integer _ => true
  | .String bytes => !bytes.contains 0
  | .List slots => c4ClassElements slots
  | _ => false
termination_by o => sizeOf o

/-- `c4Class` over a slot array: no holes, every element in the class. -/
def c4ClassElements : List (Option ChalkObject) → Bool
  | [] => true
  | some o :: rest => c4Class o && c4ClassElements rest
  | none :: _ => false
termination_by ls => sizeOf ls

end

/-- Byte-lexicographic strict order on byte sequences, stated from the
specification's words (shorter prefix first, otherwise first differing
byte decides); used to state what order `ChalkCompareObjects` realizes on
Strings. -/
inductive LexLt : List Nat → List Nat → Prop where
  | nil (b : Nat) (bs : List Nat) : LexLt [] (b :: bs)
  | head (a b : Nat) (as bs : List Nat) (h : a < b) :
      LexLt (a :: as) (b :: bs)
  | tail (a : Nat) (as bs : List Nat) (h : LexLt as bs) :
      LexLt (a :: as) (a :: bs)

/-- A byte buffer without embedded zero bytes is seen whole by the C string
routines. -/
theorem cString_eq_self {bytes : List Nat} (h : ¬ 0 ∈ bytes) :
    cString bytes = bytes := by
  unfold cString
  simp only [List.takeWhile_eq_self_iff]
  exact fun x hx => by simp; exact fun h0 => h (h0 ▸ hx)

/-- Value replacement never changes the number of dictionary entries. -/
theorem dictReplaceValue_length (entries : List (ChalkObject × ChalkObject))
    (key value : ChalkObject) :
    (dictReplaceValue entries key value).length = entries.length := by
  induction entries with
  | nil => rfl
  | cons e rest ih =>
    by_cases h : ChalkCompareObjects e.1 key = some 0 <;>
      simp [dictReplaceValue, h, ih]

/-- The dictionary merge loop never decreases the generation counter. -/
theorem dictAdd_generation_mono :
    ∀ (source entries : List (ChalkObject × ChalkObject)) (generation : Nat),
      generation ≤ (ChalkDictAdd entries generation source).2.2 := by
  intro source
  induction source with
  | nil => intro entries generation; simp [ChalkDictAdd]
  | cons kv rest ih =>
    intro entries generation
    obtain ⟨key, value⟩ := kv
    by_cases hk : invalidDictKeyKind key
    · simp [ChalkDictAdd, ChalkDictSetElement, hk, EINVAL]
    · cases hl : ChalkDictLookup entries key with
      | none =>
          simp only [ChalkDictAdd, ChalkDictSetElement, hk, hl,
            Bool.false_eq_true, if_false]
          exact le_trans (Nat.le_succ _) (ih _ _)
      | some e =>
          simp only [ChalkDictAdd, ChalkDictSetElement, hk, hl,
            Bool.false_eq_true, if_false]
          exact ih _ _

/-- Swapping the operands of the byte comparison negates its result. -/
theorem strcmpAux_flip : ∀ as bs : List Nat, strcmpAux as bs = -strcmpAux bs as
  | [], [] => by simp [strcmpAux]
  | [], _ :: _ => by simp [strcmpAux]
  | _ :: _, [] => by simp [strcmpAux]
  | a :: as, b :: bs => by
    rcases Nat.lt_trichotomy a b with h | h | h
    · simp [strcmpAux, h, Nat.lt_asymm h, Nat.ne_of_lt h]
    · subst h
      simp [strcmpAux, Nat.lt_irrefl]
      exact strcmpAux_flip as bs
    · simp [strcmpAux, h, Nat.lt_asymm h, Nat.ne_of_gt h]

/-- The clamped byte comparison only produces -1, 0 or 1. -/
theorem strcmpAux_mem : ∀ as bs : List Nat,
    strcmpAux as bs = -1 ∨ strcmpAux as bs = 0 ∨ strcmpAux as bs = 1
  | [], [] => by simp [strcmpAux]
  | [], _ :: _ => by simp [strcmpAux]
  | _ :: _, [] => by simp [strcmpAux]
  | a :: as, b :: bs => by
    by_cases h1 : a < b
    · simp [strcmpAux, h1]
    by_cases h2 : b < a
    · simp [strcmpAux, h1, h2]
    · simpa [strcmpAux, h1, h2] using strcmpAux_mem as bs

/-- The byte comparison returns -1 exactly on byte-lexicographically
ordered operands. -/
theorem strcmpAux_neg_one_iff : ∀ as bs : List Nat,
    (strcmpAux as bs = -1 ↔ LexLt as bs)
  | [], [] => by
    simp [strcmpAux]
    intro h
    cases h
  | [], b :: bs => by
    simp [strcmpAux]
    exact LexLt.nil b bs
  | a :: as, [] => by
    simp [strcmpAux]
    intro h
    cases h
  | a :: as, b :: bs => by
    rcases Nat.lt_trichotomy a b with h | h | h
    · have he : strcmpAux (a :: as) (b :: bs) = -1 := by
        simp [strcmpAux, h]
      simp only [he, true_iff, eq_self_iff_true]
      exact LexLt.head a b as bs h
    · subst h
      simp only [strcmpAux, Nat.lt_irrefl, if_neg (Nat.lt_irrefl a)]
      constructor
      · intro hr
        exact LexLt.tail a as bs ((strcmpAux_neg_one_iff as bs).mp hr)
      · intro hlt
        cases hlt with
        | head _ _ _ _ hab => exact absurd hab (Nat.lt_irrefl a)
        | tail _ _ _ ht => exact (strcmpAux_neg_one_iff as bs).mpr ht
    · have h1 : ¬ a < b := Nat.lt_asymm h
      simp only [strcmpAux, if_neg h1, if_pos h]
      constructor
      · intro hr
        exact absurd hr (by norm_num)
      · intro hlt
        cases hlt with
        | head _ _ _ _ hab => exact absurd hab h1
        | tail _ _ _ _ => exact absurd rfl (Nat.ne_of_gt h)

/-- The byte comparison returns 0 exactly on equal byte sequences. -/
theorem strcmpAux_eq_zero_iff : ∀ as bs : List Nat,
    (strcmpAux as bs = 0 ↔ as = bs)
  | [], [] => by simp [strcmpAux]
  | [], b :: bs => by simp [strcmpAux]
  | a :: as, [] => by simp [strcmpAux]
  | a :: as, b :: bs => by
    rcases Nat.lt_trichotomy a b with h | h | h
    · simp [strcmpAux, h, Nat.ne_of_lt h]
    · subst h
      simp only [strcmpAux, Nat.lt_irrefl, if_neg (Nat.lt_irrefl a)]
      simpa using strcmpAux_eq_zero_iff as bs
    · have h1 : ¬ a < b := Nat.lt_asymm h
      simp [strcmpAux, h1, h, Nat.ne_of_gt h]

/-- Objects of different kinds compare by their kind tags, in both
directions. -/
theorem compare_cross (a b : ChalkObject) (h : kindTag a < kindTag b) :
    ChalkCompareObjects a b = some (-1)
    ∧ ChalkCompareObjects b a = some 1 := by
  constructor
  · rw [ChalkCompareObjects, if_pos h]
    all_goals (intros; subst_vars; simp [kindTag] at h)
  · rw [ChalkCompareObjects, if_neg (Nat.lt_asymm h), if_pos h]
    all_goals (intros; subst_vars; simp [kindTag] at h)

/-- An element comparison that returns zero moves the loop to the remaining
slots. -/
theorem compareElements_cons_zero {l r : ChalkObject}
    (ls rs : List (Option ChalkObject))
    (h : ChalkCompareObjects l r = some 0) :
    compareElements (some l :: ls) (some r :: rs) = compareElements ls rs := by
  rw [compareElements, h]
  split
  · rfl
  · rename_i a bfalse
    exact absurd rfl bfalse

/-- A nonzero element comparison is the result of the whole element loop. -/
theorem compareElements_cons_ne {l r : ChalkObject} {v : Int}
    (ls rs : List (Option ChalkObject))
    (h : ChalkCompareObjects l r = some v) (hv : v ≠ 0) :
    compareElements (some l :: ls) (some r :: rs) = some v := by
  rw [compareElements, h]
  split
  · rename_i heq
    injection heq with hveq
    exact absurd hveq hv
  · rfl

/-- Size-bounded induction: comparison of recursively hole-free values never
reaches the modelled NULL dereference. -/
theorem compareTotalAux (n : Nat) :
    (∀ a b : ChalkObject, sizeOf a ≤ n → holeFree a = true →
      holeFree b = true → (ChalkCompareObjects a b).isSome = true)
    ∧ (∀ ls rs : List (Option ChalkObject), sizeOf ls ≤ n →
        holeFreeElements ls = true → holeFreeElements rs = true →
        (compareElements ls rs).isSome = true) := by
  induction n using Nat.strong_induction_on with
  | _ n ih =>
  constructor
  · intro a b hsz ha hb
    cases a <;> cases b <;>
      try (simp [ChalkCompareObjects, kindTag]; done)
    rename_i xs ys
    by_cases h1 : xs.length < ys.length
    · simp [ChalkCompareObjects, kindTag, h1]
    by_cases h2 : ys.length < xs.length
    · simp [ChalkCompareObjects, kindTag, h1, h2]
    · have hxs : holeFreeElements xs = true := by
        simpa [holeFree] using ha
      have hys : holeFreeElements ys = true := by
        simpa [holeFree] using hb
      have hszx : sizeOf xs < n := by
        have hs : sizeOf (ChalkObject.List xs) = 1 + sizeOf xs := by simp
        omega
      have htail := (ih (sizeOf xs) hszx).2 xs ys le_rfl hxs hys
      rw [ChalkCompareObjects]
      simpa [kindTag, h1, h2] using htail
  · intro ls rs hsz hls hrs
    cases ls with
    | nil => cases rs <;> simp [compareElements]
    | cons x ls' =>
      cases rs with
      | nil => simp [compareElements]
      | cons y rs' =>
        cases x with
        | none => simp [holeFreeElements] at hls
        | some l =>
          cases y with
          | none => simp [holeFreeElements] at hrs
          | some r =>
            rw [holeFreeElements] at hls hrs
            simp only [Bool.and_eq_true] at hls hrs
            obtain ⟨hl1, hl2⟩ := hls
            obtain ⟨hr1, hr2⟩ := hrs
            have hsl : sizeOf (some l :: ls') = 1 + (1 + sizeOf l) + sizeOf ls' := by
              simp
            have hszl : sizeOf l < n := by omega
            have hcmp := (ih (sizeOf l) hszl).1 l r le_rfl hl1 hr1
            obtain ⟨v, hv⟩ := Option.isSome_iff_exists.mp hcmp
            rw [compareElements, hv]
            split
            · have hszls : sizeOf ls' < n := by omega
              exact (ih (sizeOf ls') hszls).2 ls' rs' le_rfl hl2 hr2
            · rfl

/-- Size-bounded induction: on the C4 sample class, comparison always
produces a result in -1/0/1 and swapping the operands negates it. -/
theorem compareFlipAux (n : Nat) :
    (∀ a b : ChalkObject, sizeOf a + sizeOf b ≤ n → c4Class a = true →
      c4Class b = true →
      ∃ r : Int, ChalkCompareObjects a b = some r
        ∧ ChalkCompareObjects b a = some (-r)
        ∧ (r = -1 ∨ r = 0 ∨ r = 1))
    ∧ (∀ ls rs : List (Option ChalkObject), sizeOf ls + sizeOf rs ≤ n →
        c4ClassElements ls = true → c4ClassElements rs = true →
        ∃ r : Int, compareElements ls rs = some r
          ∧ compareElements rs ls = some (-r)
          ∧ (r = -1 ∨ r = 0 ∨ r = 1)) := by
  induction n using Nat.strong_induction_on with
  | _ n ih =>
  constructor
  · intro a b hsz ha hb
    by_cases hk : kindTag a = kindTag b
    · cases a with
      | Dict e g ad => simp [c4Class] at ha
      | Function f bo sc ad => simp [c4Class] at ha
      | Null =>
        cases b with
        | Null =>
          refine ⟨0, ?_, ?_, Or.inr (Or.inl rfl)⟩ <;>
            (rw [ChalkCompareObjects]; simp [kindTag])
        | Integer _ => simp [kindTag] at hk
        | String _ => simp [kindTag] at hk
        | Dict _ _ _ => simp [kindTag] at hk
        | List _ => simp [kindTag] at hk
        | Function _ _ _ _ => simp [kindTag] at hk
      | Integer x =>
        cases b with
        | Integer y =>
          rcases Int.lt_trichotomy x y with h | h | h
          · refine ⟨-1, ?_, ?_, Or.inl rfl⟩
            · rw [ChalkCompareObjects]
              simp [kindTag, h]
            · rw [ChalkCompareObjects]
              simp [kindTag, Int.lt_asymm h, h]
          · subst h
            refine ⟨0, ?_, ?_, Or.inr (Or.inl rfl)⟩ <;>
              (rw [ChalkCompareObjects]; simp [kindTag, Int.lt_irrefl])
          · refine ⟨1, ?_, ?_, Or.inr (Or.inr rfl)⟩
            · rw [ChalkCompareObjects]
              simp [kindTag, Int.lt_asymm h, h]
            · rw [ChalkCompareObjects]
              simp [kindTag, Int.lt_asymm h, h]
        | Null => simp [kindTag] at hk
        | String _ => simp [kindTag] at hk
        | Dict _ _ _ => simp [kindTag] at hk
        | List _ => simp [kindTag] at hk
        | Function _ _ _ _ => simp [kindTag] at hk
      | String s =>
        cases b with
        | String t =>
          refine ⟨strcmpAux (cString s) (cString t), ?_, ?_, ?_⟩
          · rw [ChalkCompareObjects]
            simp [kindTag]
          · have hts : ChalkCompareObjects (ChalkObject.String t)
                (ChalkObject.String s)
                = some (strcmpAux (cString t) (cString s)) := by
              rw [ChalkCompareObjects]
              simp [kindTag]
            rw [hts, strcmpAux_flip (cString t) (cString s)]
          · exact strcmpAux_mem _ _
        | Null => simp [kindTag] at hk
        | Integer _ => simp [kindTag] at hk
        | Dict _ _ _ => simp [kindTag] at hk
        | List _ => simp [kindTag] at hk
        | Function _ _ _ _ => simp [kindTag] at hk
      | List xs =>
        cases b with
        | List ys =>
          rcases Nat.lt_trichotomy xs.length ys.length with h | h | h
          · refine ⟨-1, ?_, ?_, Or.inl rfl⟩
            · rw [ChalkCompareObjects]
              simp [kindTag, h]
            · rw [ChalkCompareObjects]
              simp [kindTag, Nat.lt_asymm h, h]
          · have hxs : c4ClassElements xs = true := by
              simpa [c4Class] using ha
            have hys : c4ClassElements ys = true := by
              simpa [c4Class] using hb
            have hsx : sizeOf (ChalkObject.List xs) = 1 + sizeOf xs := by simp
            have hsy : sizeOf (ChalkObject.List ys) = 1 + sizeOf ys := by simp
            have hlt : sizeOf xs + sizeOf ys < n := by omega
            obtain ⟨r, h1, h2, h3⟩ := (ih _ hlt).2 xs ys le_rfl hxs hys
            refine ⟨r, ?_, ?_, h3⟩
            · rw [ChalkCompareObjects]
              simpa [kindTag, h, Nat.lt_irrefl] using h1
            · rw [ChalkCompareObjects]
              simpa [kindTag, h, Nat.lt_irrefl] using h2
          · refine ⟨1, ?_, ?_, Or.inr (Or.inr rfl)⟩
            · rw [ChalkCompareObjects]
              simp [kindTag, Nat.lt_asymm h, h]
            · rw [ChalkCompareObjects]
              simp [kindTag, Nat.lt_asymm h, h]
        | Null => simp [kindTag] at hk
        | Integer _ => simp [kindTag] at hk
        | String _ => simp [kindTag] at hk
        | Dict _ _ _ => simp [kindTag] at hk
        | Function _ _ _ _ => simp [kindTag] at hk
    · rcases Nat.lt_or_ge (kindTag a) (kindTag b) with hlt | hge
      · obtain ⟨h1, h2⟩ := compare_cross a b hlt
        exact ⟨-1, h1, by rw [h2]; norm_num, Or.inl rfl⟩
      · have hgt : kindTag b < kindTag a :=
          lt_of_le_of_ne hge (fun he => hk he.symm)
        obtain ⟨h1, h2⟩ := compare_cross b a hgt
        exact ⟨1, h2, by rw [h1], Or.inr (Or.inr rfl)⟩
  · intro ls rs hsz hls hrs
    cases ls with
    | nil =>
      cases rs with
      | nil => exact ⟨0, by simp [compareElements], by simp [compareElements],
          Or.inr (Or.inl rfl)⟩
      | cons y rs' => exact ⟨0, by simp [compareElements],
          by simp [compareElements], Or.inr (Or.inl rfl)⟩
    | cons x ls' =>
      cases rs with
      | nil => exact ⟨0, by simp [compareElements],
          by simp [compareElements], Or.inr (Or.inl rfl)⟩
      | cons y rs' =>
        cases x with
        | none => simp [c4ClassElements] at hls
        | some l =>
          cases y with
          | none => simp [c4ClassElements] at hrs
          | some r =>
            rw [c4ClassElements] at hls hrs
            simp only [Bool.and_eq_true] at hls hrs
            obtain ⟨hl1, hl2⟩ := hls
            obtain ⟨hr1, hr2⟩ := hrs
            have hsl : sizeOf (some l :: ls')
                = 1 + (1 + sizeOf l) + sizeOf ls' := by simp
            have hsr : sizeOf (some r :: rs')
                = 1 + (1 + sizeOf r) + sizeOf rs' := by simp
            have hlt1 : sizeOf l + sizeOf r < n := by omega
            obtain ⟨v, hv1, hv2, hv3⟩ := (ih _ hlt1).1 l r le_rfl hl1 hr1
            by_cases hv0 : v = 0
            · subst hv0
              have hv2' : ChalkCompareObjects r l = some 0 := by
                simpa using hv2
              have hlt2 : sizeOf ls' + sizeOf rs' < n := by omega
              obtain ⟨w, hw1, hw2, hw3⟩ :=
                (ih _ hlt2).2 ls' rs' le_rfl hl2 hr2
              exact ⟨w, (compareElements_cons_zero ls' rs' hv1).trans hw1,
                (compareElements_cons_zero rs' ls' hv2').trans hw2, hw3⟩
            · have hnv0 : -v ≠ 0 := by omega
              exact ⟨v, compareElements_cons_ne ls' rs' hv1 hv0,
                compareElements_cons_ne rs' ls' hv2 hnv0, hv3⟩

/-- On the C4 sample class, comparison is total, produces -1/0/1, and is
antisymmetric under operand swap. -/
theorem compare_class_flip (a b : ChalkObject) (ha : c4Class a = true)
    (hb : c4Class b = true) :
    ∃ r : Int, ChalkCompareObjects a b = some r
      ∧ ChalkCompareObjects b a = some (-r)
      ∧ (r = -1 ∨ r = 0 ∨ r = 1) :=
  (compareFlipAux (sizeOf a + sizeOf b)).1 a b le_rfl ha hb

/-- On the C4 sample class, comparing a value with an equal-content value
(itself, in this value embedding) yields 0. -/
theorem compare_class_refl (a : ChalkObject) (ha : c4Class a = true) :
    ChalkCompareObjects a a = some 0 := by
  obtain ⟨r, h1, h2, _⟩ := compare_class_flip a a ha ha
  have hr : r = -r := Option.some.inj (h1.symm.trans h2)
  have hr0 : r = 0 := by omega
  rw [hr0] at h1
  exact h1

/-- On class slot arrays, the element loop returns 0 exactly when every
index where both lists hold an element compares to 0. -/
theorem compareElements_zero_iff :
    ∀ ls rs : List (Option ChalkObject), c4ClassElements ls = true →
      c4ClassElements rs = true →
      (compareElements ls rs = some 0 ↔
        ∀ (i : Nat) (l r : ChalkObject), ls.get? i = some (some l) →
          rs.get? i = some (some r) → ChalkCompareObjects l r = some 0) := by
  intro ls
  induction ls with
  | nil =>
    intro rs hls hrs
    constructor
    · intro _ i l r hil hir
      simp at hil
    · intro _
      cases rs <;> simp [compareElements]
  | cons x ls' ih =>
    intro rs hls hrs
    cases rs with
    | nil =>
      constructor
      · intro _ i l r hil hir
        simp at hir
      · intro _
        simp [compareElements]
    | cons y rs' =>
      cases x with
      | none => simp [c4ClassElements] at hls
      | some l0 =>
        cases y with
        | none => simp [c4ClassElements] at hrs
        | some r0 =>
          rw [c4ClassElements] at hls hrs
          simp only [Bool.and_eq_true] at hls hrs
          obtain ⟨hl1, hl2⟩ := hls
          obtain ⟨hr1, hr2⟩ := hrs
          obtain ⟨v, hv1, hv2, hv3⟩ := compare_class_flip l0 r0 hl1 hr1
          by_cases hv0 : v = 0
          · subst hv0
            rw [compareElements_cons_zero ls' rs' hv1, ih rs' hl2 hr2]
            constructor
            · intro htail i l r hil hir
              cases i with
              | zero =>
                rw [List.get?_cons_zero] at hil hir
                have hl : some l0 = some l := Option.some.inj hil
                have hr : some r0 = some r := Option.some.inj hir
                rw [← Option.some.inj hl, ← Option.some.inj hr]
                exact hv1
              | succ i' =>
                rw [List.get?_cons_succ] at hil hir
                exact htail i' l r hil hir
            · intro hall i l r hil hir
              exact hall (i + 1) l r (by simpa using hil) (by simpa using hir)
          · rw [compareElements_cons_ne ls' rs' hv1 hv0]
            constructor
            · intro heq
              exact absurd (Option.some.inj heq) hv0
            · intro hall
              have h0 := hall 0 l0 r0 (by simp) (by simp)
              exact absurd (Option.some.inj (hv1.symm.trans h0)) hv0

/-- On class slot arrays, the first index whose elements compare nonzero
decides the element loop. -/
theorem compareElements_first_diff :
    ∀ (j : Nat) (ls rs : List (Option ChalkObject)) (v : Int),
      c4ClassElements ls = true → c4ClassElements rs = true →
      (∀ (i : Nat) (l r : ChalkObject), i < j → ls.get? i = some (some l) →
        rs.get? i = some (some r) → ChalkCompareObjects l r = some 0) →
      (∀ l r : ChalkObject, ls.get? j = some (some l) →
        rs.get? j = some (some r) → ChalkCompareObjects l r = some v) →
      v ≠ 0 → j < ls.length → j < rs.length →
      compareElements ls rs = some v := by
  intro j
  induction j with
  | zero =>
    intro ls rs v hls hrs hpre hj hv hjl hjr
    cases ls with
    | nil => simp at hjl
    | cons x ls' =>
      cases rs with
      | nil => simp at hjr
      | cons y rs' =>
        cases x with
        | none => simp [c4ClassElements] at hls
        | some l0 =>
          cases y with
          | none => simp [c4ClassElements] at hrs
          | some r0 =>
            have hc := hj l0 r0 (by simp) (by simp)
            exact compareElements_cons_ne ls' rs' hc hv
  | succ j' ih =>
    intro ls rs v hls hrs hpre hj hv hjl hjr
    cases ls with
    | nil => simp at hjl
    | cons x ls' =>
      cases rs with
      | nil => simp at hjr
      | cons y rs' =>
        cases x with
        | none => simp [c4ClassElements] at hls
        | some l0 =>
          cases y with
          | none => simp [c4ClassElements] at hrs
          | some r0 =>
            rw [c4ClassElements] at hls hrs
            simp only [Bool.and_eq_true] at hls hrs
            have hc0 := hpre 0 l0 r0 (Nat.succ_pos j') (by simp) (by simp)
            rw [compareElements_cons_zero ls' rs' hc0]
            apply ih ls' rs' v hls.2 hrs.2
            · intro i l r hi hil hir
              exact hpre (i + 1) l r (Nat.succ_lt_succ hi)
                (by simpa using hil) (by simpa using hir)
            · intro l r hil hir
              exact hj l r (by simpa using hil) (by simpa using hir)
            · exact hv
            · simpa using Nat.lt_of_succ_lt_succ (by simpa using hjl)
            · simpa using Nat.lt_of_succ_lt_succ (by simpa using hjr)

/-- Claim C1: a dictionary iterator whose snapshotted generation differs from
the dictionary's live generation makes the next `ChalkDictIterate` step
report ERANGE while leaving the dictionary, the iterator and the
out-parameter untouched; in particular inserting a new key after
`ChalkDictInitializeIterator` makes the next step fail that way, while
value-only replacement of an existing key leaves the generations equal and
the next step succeeds, returning the dictionary unchanged and yielding a
key. -/
theorem c1_iterator_generation_check :
    (∀ (entries : List (ChalkObject × ChalkObject)) (generation : Nat)
        (iterator : ChalkDictIterator),
        iterator.generation ≠ generation →
        ChalkDictIterate entries generation iterator
          = (ERANGE, entries, generation, iterator, none))
    ∧ (∀ (entries : List (ChalkObject × ChalkObject)) (generation : Nat)
        (key value : ChalkObject),
        invalidDictKeyKind key = false →
        ChalkDictLookup entries key = none →
        ChalkDictIterate (ChalkDictSetElement entries generation key value).2.1
            (ChalkDictSetElement entries generation key value).2.2.1
            (ChalkDictInitializeIterator entries generation)
          = (ERANGE, (ChalkDictSetElement entries generation key value).2.1,
              (ChalkDictSetElement entries generation key value).2.2.1,
              ChalkDictInitializeIterator entries generation, none))
    ∧ (∀ (entries : List (ChalkObject × ChalkObject)) (generation : Nat)
        (key value : ChalkObject) (entry : ChalkObject × ChalkObject),
        invalidDictKeyKind key = false →
        ChalkDictLookup entries key = some entry →
        (ChalkDictIterate (ChalkDictSetElement entries generation key value).2.1
            (ChalkDictSetElement entries generation key value).2.2.1
            (ChalkDictInitializeIterator entries generation)).1 = 0
        ∧ (ChalkDictIterate (ChalkDictSetElement entries generation key value).2.1
            (ChalkDictSetElement entries generation key value).2.2.1
            (ChalkDictInitializeIterator entries generation)).2.1
          = (ChalkDictSetElement entries generation key value).2.1
        ∧ (ChalkDictIterate (ChalkDictSetElement entries generation key value).2.1
            (ChalkDictSetElement entries generation key value).2.2.1
            (ChalkDictInitializeIterator entries generation)).2.2.1
          = (ChalkDictSetElement entries generation key value).2.2.1
        ∧ ∃ yielded : ChalkObject,
            (ChalkDictIterate (ChalkDictSetElement entries generation key value).2.1
              (ChalkDictSetElement entries generation key value).2.2.1
              (ChalkDictInitializeIterator entries generation)).2.2.2.2
              = some yielded) := by
  refine ⟨?_, ?_, ?_⟩
  · intro entries generation iterator hg
    simp [ChalkDictIterate, hg]
  · intro entries generation key value hk hl
    have hset : ChalkDictSetElement entries generation key value
        = (0, entries ++ [(key, value)], generation + 1,
            [RefOp.addRef key, RefOp.addRef value]) := by
      simp [ChalkDictSetElement, hk, hl]
    rw [hset]
    have hg : (ChalkDictInitializeIterator entries generation).generation
        ≠ generation + 1 := by
      simp [ChalkDictInitializeIterator]
    simp [ChalkDictIterate, hg]
  · intro entries generation key value entry hk hl
    have hset : ChalkDictSetElement entries generation key value
        = (0, dictReplaceValue entries key value, generation,
            [RefOp.addRef value, RefOp.release entry.2]) := by
      simp [ChalkDictSetElement, hk, hl]
    have hne : entries ≠ [] := by
      intro hnil
      rw [hnil] at hl
      exact Option.noConfusion hl
    have hlen : 0 < (dictReplaceValue entries key value).length := by
      rw [dictReplaceValue_length]
      exact List.length_pos.mpr hne
    obtain ⟨entry0, hget0⟩ : ∃ e0, (dictReplaceValue entries key value).get? 0
        = some e0 := by
      rw [List.get?_eq_getElem?]
      exact ⟨_, List.getElem?_eq_getElem hlen⟩
    have hinit : ChalkDictInitializeIterator entries generation
        = { next := some 0, generation := generation } := by
      simp [ChalkDictInitializeIterator, List.isEmpty_iff, hne]
    rw [hset, hinit]
    rw [List.get?_eq_getElem?] at hget0
    simp [ChalkDictIterate, hget0, List.get?_eq_getElem?]

/-- Claim C1 witness: the spec's own scenario, a one-entry dictionary with
key "a", behaves as stated when "b" is inserted (error) and when "a" is
replaced (success). -/
theorem c1_witness :
    invalidDictKeyKind (ChalkObject.String [98]) = false
    ∧ ChalkDictLookup [(ChalkObject.String [97], ChalkObject.Integer 1)]
        (.String [98]) = none
    ∧ ChalkDictIterate
        (ChalkDictSetElement [(ChalkObject.String [97], ChalkObject.Integer 1)]
          1 (.String [98]) (.Integer 2)).2.1
        (ChalkDictSetElement [(ChalkObject.String [97], ChalkObject.Integer 1)]
          1 (.String [98]) (.Integer 2)).2.2.1
        (ChalkDictInitializeIterator
          [(ChalkObject.String [97], ChalkObject.Integer 1)] 1)
      = (ERANGE,
          (ChalkDictSetElement [(ChalkObject.String [97], ChalkObject.Integer 1)]
            1 (.String [98]) (.Integer 2)).2.1,
          (ChalkDictSetElement [(ChalkObject.String [97], ChalkObject.Integer 1)]
            1 (.String [98]) (.Integer 2)).2.2.1,
          ChalkDictInitializeIterator
            [(ChalkObject.String [97], ChalkObject.Integer 1)] 1, none)
    ∧ (ChalkDictIterate
        (ChalkDictSetElement [(ChalkObject.String [97], ChalkObject.Integer 1)]
          1 (.String [97]) (.Integer 2)).2.1
        (ChalkDictSetElement [(ChalkObject.String [97], ChalkObject.Integer 1)]
          1 (.String [97]) (.Integer 2)).2.2.1
        (ChalkDictInitializeIterator
          [(ChalkObject.String [97], ChalkObject.Integer 1)] 1)).1 = 0 := by
  have hlookupB : ChalkDictLookup
      [(ChalkObject.String [97], ChalkObject.Integer 1)] (.String [98]) = none := by
    simp [ChalkDictLookup, ChalkCompareObjects, kindTag, cString, strcmpAux]
  have hlookupA : ChalkDictLookup
      [(ChalkObject.String [97], ChalkObject.Integer 1)] (.String [97])
      = some (ChalkObject.String [97], ChalkObject.Integer 1) := by
    simp [ChalkDictLookup, ChalkCompareObjects, kindTag, cString, strcmpAux]
  refine ⟨rfl, hlookupB, ?_, ?_⟩
  · exact c1_iterator_generation_check.2.1 _ 1 _ (.Integer 2) rfl hlookupB
  · exact (c1_iterator_generation_check.2.2
      [(ChalkObject.String [97], ChalkObject.Integer 1)] 1 (.String [97])
      (.Integer 2) (ChalkObject.String [97], ChalkObject.Integer 1) rfl
      hlookupA).1

/-- Claim C2: `ChalkDictSetElement` increments the generation counter by
exactly one when it inserts a new key (appending the entry and adding
references to key and value), leaves it unchanged when it replaces the value
of an existing key, leaves the dictionary fully untouched when the key kind
is invalid, and never decreases it; `ChalkDictIterate` and the merge loop
also never decrease it.  (`ChalkDictLookup` is a pure query in this
embedding: it returns only an entry and no dictionary state, so it cannot
change the generation.) -/
theorem c2_generation_counter :
    ∀ (entries : List (ChalkObject × ChalkObject)) (generation : Nat)
      (key value : ChalkObject),
      (invalidDictKeyKind key = false → ChalkDictLookup entries key = none →
        ChalkDictSetElement entries generation key value
          = (0, entries ++ [(key, value)], generation + 1,
              [RefOp.addRef key, RefOp.addRef value]))
      ∧ (∀ entry, invalidDictKeyKind key = false →
          ChalkDictLookup entries key = some entry →
          (ChalkDictSetElement entries generation key value).2.2.1 = generation
          ∧ (ChalkDictSetElement entries generation key value).1 = 0)
      ∧ (invalidDictKeyKind key = true →
          ChalkDictSetElement entries generation key value
            = (EINVAL, entries, generation, []))
      ∧ generation ≤ (ChalkDictSetElement entries generation key value).2.2.1
      ∧ (∀ iterator : ChalkDictIterator,
          (ChalkDictIterate entries generation iterator).2.2.1 = generation)
      ∧ (∀ source, generation ≤ (ChalkDictAdd entries generation source).2.2) := by
  intro entries generation key value
  refine ⟨?_, ?_, ?_, ?_, ?_, fun source => dictAdd_generation_mono source _ _⟩
  · intro hk hl
    simp [ChalkDictSetElement, hk, hl]
  · intro entry hk hl
    simp [ChalkDictSetElement, hk, hl]
  · intro hk
    simp [ChalkDictSetElement, hk]
  · by_cases hk : invalidDictKeyKind key
    · simp [ChalkDictSetElement, hk]
    · cases hl : ChalkDictLookup entries key with
      | none => simp [ChalkDictSetElement, hk, hl]
      | some e => simp [ChalkDictSetElement, hk, hl]
  · intro iterator
    simp only [ChalkDictIterate]
    split
    · rfl
    · split
      · rfl
      · split <;> rfl

/-- Claim C2 witness: inserting "a" into an empty dictionary bumps the
generation 0 to 1, replacing "a" keeps it at 1, and a List key is rejected
with everything unchanged. -/
theorem c2_witness :
    (invalidDictKeyKind (ChalkObject.String [97]) = false
      ∧ ChalkDictLookup [] (.String [97]) = none
      ∧ ChalkDictSetElement [] 0 (.String [97]) (.Integer 1)
          = (0, [(ChalkObject.String [97], ChalkObject.Integer 1)], 1,
              [RefOp.addRef (.String [97]), RefOp.addRef (.Integer 1)]))
    ∧ ((ChalkDictSetElement [(ChalkObject.String [97], ChalkObject.Integer 1)]
          1 (.String [97]) (.Integer 2)).2.2.1 = 1)
    ∧ ChalkDictSetElement [] 0 (.List []) (.Integer 1) = (EINVAL, [], 0, []) := by
  have hlookupA : ChalkDictLookup
      [(ChalkObject.String [97], ChalkObject.Integer 1)] (.String [97])
      = some (ChalkObject.String [97], ChalkObject.Integer 1) := by
    simp [ChalkDictLookup, ChalkCompareObjects, kindTag, cString, strcmpAux]
  refine ⟨⟨rfl, rfl, ?_⟩, ?_, ?_⟩
  · exact (c2_generation_counter [] 0 _ _).1 rfl rfl
  · exact ((c2_generation_counter
      [(ChalkObject.String [97], ChalkObject.Integer 1)] 1 (.String [97])
      (.Integer 2)).2.1 (ChalkObject.String [97], ChalkObject.Integer 1) rfl
      hlookupA).1
  · exact (c2_generation_counter [] 0 (.List []) (.Integer 1)).2.2.1 rfl

/-- Claim C3 counterexample: `create-string([0], 1)` stores one byte (the
explicit stored length is 1), yet the `len` builtin returns Integer 0, not
Integer 1, because it measures the buffer with `strlen`, which stops at the
embedded zero byte. -/
theorem c3_length_counterexample :
    ChalkCreateString [0] 1 = .String [0]
    ∧ ([0] : List Nat).length = 1
    ∧ (ChalkFunctionLength (ChalkCreateString [0] 1)).2 = some (.Integer 0)
    ∧ (ChalkFunctionLength (ChalkCreateString [0] 1)).2 ≠ some (.Integer 1) := by
  have heval : (ChalkFunctionLength (ChalkCreateString [0] 1)).2
      = some (.Integer 0) := by
    simp [ChalkCreateString, ChalkFunctionLength, cString, ChalkCreateInteger]
  refine ⟨rfl, rfl, heval, ?_⟩
  rw [heval]
  simp

/-- Claim C3, amended: the `len` builtin applied to a String returns the
`strlen` of the stored buffer, i.e. the number of stored bytes before the
first embedded zero byte, not the stored explicit length; the two agree
exactly when the stored bytes contain no zero, and in particular
`create-string(b, n)` with `n` zero-free bytes reports length `n`. -/
theorem c3_amended :
    (∀ bytes : List Nat,
      (ChalkFunctionLength (.String bytes)).2
        = some (.Integer ((cString bytes).length)))
    ∧ (∀ bytes : List Nat, ¬ 0 ∈ bytes →
        (ChalkFunctionLength (.String bytes)).2 = some (.Integer bytes.length))
    ∧ (∀ (b : List Nat) (n : Nat), n ≤ b.length → ¬ 0 ∈ b →
        (ChalkFunctionLength (ChalkCreateString b n)).2 = some (.Integer n)) := by
  refine ⟨fun bytes => rfl, ?_, ?_⟩
  · intro bytes h
    simp [ChalkFunctionLength, ChalkCreateInteger, cString_eq_self h]
  · intro b n hn h
    have htake : ¬ 0 ∈ b.take n := fun hmem => h (List.mem_of_mem_take hmem)
    simp [ChalkFunctionLength, ChalkCreateString, ChalkCreateInteger,
      cString_eq_self htake, List.length_take, Nat.min_eq_left hn]

/-- Claim C3 witness: a two-byte zero-free string reports length 2. -/
theorem c3_amended_witness :
    ¬ (0 : Nat) ∈ ([97, 98] : List Nat)
    ∧ (2 ≤ ([97, 98] : List Nat).length)
    ∧ (ChalkFunctionLength (ChalkCreateString [97, 98] 2)).2
        = some (.Integer 2) := by
  exact ⟨by decide, by decide, (c3_amended.2.2 [97, 98] 2 (by decide) (by decide))⟩

/-- Claim C4: over Null, Integers, Strings without embedded zero bytes and
hole-free Lists of such values, `ChalkCompareObjects` always produces a
result in -1/0/1, negates under operand swap, yields 0 on equal-content
operands, and realizes the natural order within each kind: numeric for
Integers, byte-lexicographic for Strings (result -1 exactly on `LexLt`,
0 exactly on equal byte lists), and length-then-first-differing-element for
Lists. -/
theorem c4_compare_protocol :
    ∀ a b : ChalkObject, c4Class a = true → c4Class b = true →
      (∃ r : Int, ChalkCompareObjects a b = some r
        ∧ ChalkCompareObjects b a = some (-r)
        ∧ (r = -1 ∨ r = 0 ∨ r = 1))
      ∧ ChalkCompareObjects a a = some 0
      ∧ (∀ x y : Int, a = .Integer x → b = .Integer y →
          ChalkCompareObjects a b
            = some (if x < y then -1 else if y < x then 1 else 0))
      ∧ (∀ s t : List Nat, a = .String s → b = .String t →
          ((ChalkCompareObjects a b = some (-1) ↔ LexLt s t)
            ∧ (ChalkCompareObjects a b = some 0 ↔ s = t)))
      ∧ (∀ xs ys : List (Option ChalkObject), a = .List xs → b = .List ys →
          (xs.length < ys.length → ChalkCompareObjects a b = some (-1))
          ∧ (ys.length < xs.length → ChalkCompareObjects a b = some 1)
          ∧ (xs.length = ys.length →
              (ChalkCompareObjects a b = some 0 ↔
                ∀ (i : Nat) (l r : ChalkObject), xs.get? i = some (some l) →
                  ys.get? i = some (some r) →
                  ChalkCompareObjects l r = some 0))
          ∧ (∀ (j : Nat) (v : Int), xs.length = ys.length →
              (∀ (i : Nat) (l r : ChalkObject), i < j →
                xs.get? i = some (some l) → ys.get? i = some (some r) →
                ChalkCompareObjects l r = some 0) →
              (∀ l r : ChalkObject, xs.get? j = some (some l) →
                ys.get? j = some (some r) →
                ChalkCompareObjects l r = some v) →
              v ≠ 0 → j < xs.length →
              ChalkCompareObjects a b = some v)) := by
  intro a b ha hb
  refine ⟨compare_class_flip a b ha hb, compare_class_refl a ha, ?_, ?_, ?_⟩
  · rintro x y rfl rfl
    rw [ChalkCompareObjects]
    simp [kindTag]
  · rintro s t rfl rfl
    have hs : ¬ (0 : Nat) ∈ s := by
      rw [c4Class] at ha
      simpa using ha
    have ht : ¬ (0 : Nat) ∈ t := by
      rw [c4Class] at hb
      simpa using hb
    have hcmp : ChalkCompareObjects (.String s) (.String t)
        = some (strcmpAux s t) := by
      rw [ChalkCompareObjects]
      simp [kindTag, cString_eq_self hs, cString_eq_self ht]
    rw [hcmp]
    constructor
    · simp only [Option.some.injEq]
      exact strcmpAux_neg_one_iff s t
    · simp only [Option.some.injEq]
      exact strcmpAux_eq_zero_iff s t
  · rintro xs ys rfl rfl
    have hxs : c4ClassElements xs = true := by
      rw [c4Class] at ha
      exact ha
    have hys : c4ClassElements ys = true := by
      rw [c4Class] at hb
      exact hb
    refine ⟨?_, ?_, ?_, ?_⟩
    · intro h
      rw [ChalkCompareObjects]
      simp [kindTag, h]
    · intro h
      rw [ChalkCompareObjects]
      simp [kindTag, Nat.lt_asymm h, h]
    · intro hlen
      have hcmp : ChalkCompareObjects (.List xs) (.List ys)
          = compareElements xs ys := by
        rw [ChalkCompareObjects]
        simp [kindTag, hlen, Nat.lt_irrefl]
      rw [hcmp]
      exact compareElements_zero_iff xs ys hxs hys
    · intro j v hlen hpre hj hv hjl
      have hcmp : ChalkCompareObjects (.List xs) (.List ys)
          = compareElements xs ys := by
        rw [ChalkCompareObjects]
        simp [kindTag, hlen, Nat.lt_irrefl]
      rw [hcmp]
      exact compareElements_first_diff j xs ys v hxs hys hpre hj hv hjl
        (hlen ▸ hjl)

/-- Claim C4 witness: the strings "a" and "ab" compare antisymmetrically
with a result in -1/0/1, and "a" compares equal to itself. -/
theorem c4_witness :
    c4Class (ChalkObject.String [97]) = true
    ∧ c4Class (ChalkObject.String [97, 98]) = true
    ∧ (∃ r : Int,
        ChalkCompareObjects (.String [97]) (.String [97, 98]) = some r
        ∧ ChalkCompareObjects (.String [97, 98]) (.String [97]) = some (-r)
        ∧ (r = -1 ∨ r = 0 ∨ r = 1))
    ∧ ChalkCompareObjects (.String [97]) (.String [97]) = some 0 := by
  have h1 : c4Class (ChalkObject.String [97]) = true := by
    simp [c4Class]
  have h2 : c4Class (ChalkObject.String [97, 98]) = true := by
    simp [c4Class]
  exact ⟨h1, h2, (c4_compare_protocol _ _ h1 h2).1,
    (c4_compare_protocol _ _ h1 h1).2.1⟩

/-- Claim C5: `ChalkListSetElement` at an index at or past the current count
succeeds (allocation is modelled as always succeeding), grows the list to
`index + 1` slots, leaves the old slots unchanged, fills the gap between the
old count and the index with holes, stores the new value at the index with a
reference added; and `ChalkListLookup` reports absent (NULL, distinct from
holding the Null value) on a hole or an out-of-range index. -/
theorem c5_list_set_growth :
    (∀ (slots : List (Option ChalkObject)) (index : Nat) (v : ChalkObject),
      slots.length ≤ index →
        (ChalkListSetElement slots index (some v)).1 = 0
        ∧ (ChalkListSetElement slots index (some v)).2.1.length = index + 1
        ∧ (∀ j, slots.length ≤ j → j < index →
            (ChalkListSetElement slots index (some v)).2.1.get? j = some none)
        ∧ (ChalkListSetElement slots index (some v)).2.1.get? index
            = some (some v)
        ∧ RefOp.addRef v ∈ (ChalkListSetElement slots index (some v)).2.2
        ∧ (∀ j, j < slots.length →
            (ChalkListSetElement slots index (some v)).2.1.get? j
              = slots.get? j))
    ∧ (∀ (slots : List (Option ChalkObject)) (index : Nat),
        slots.get? index = some none ∨ slots.length ≤ index →
        (ChalkListLookup slots index).1 = none)
    ∧ ((none : Option ChalkObject) ≠ some ChalkObject.Null) := by
  refine ⟨?_, ?_, by simp⟩
  · intro slots index v h
    have hold : (slots ++ List.replicate (index + 1 - slots.length)
        (none : Option ChalkObject)).getD index none = none := by
      rw [List.getD_append_right _ _ _ _ h]
      have hlt : index - slots.length < index + 1 - slots.length := by omega
      simp [List.getD, List.getElem?_replicate, hlt]
    have hresult : ChalkListSetElement slots index (some v)
        = (0, (slots ++ List.replicate (index + 1 - slots.length) none).set
            index (some v), [RefOp.addRef v]) := by
      simp only [ChalkListSetElement, if_pos h, hold, List.nil_append]
    have hglen : (slots ++ List.replicate (index + 1 - slots.length)
        (none : Option ChalkObject)).length = index + 1 := by
      simp only [List.length_append, List.length_replicate]
      omega
    rw [hresult]
    refine ⟨rfl, by simp [List.length_set, hglen], ?_, ?_, by simp, ?_⟩
    · intro j hj1 hj2
      have hne : index ≠ j := by omega
      rw [List.get?_eq_getElem?, List.getElem?_set_ne hne,
        List.getElem?_append_right hj1, List.getElem?_replicate]
      simp only [if_pos (show j - slots.length < index + 1 - slots.length
        by omega)]
    · rw [List.get?_eq_getElem?, List.getElem?_set_self (by omega)]
    · intro j hj
      have hne : index ≠ j := by omega
      rw [List.get?_eq_getElem?, List.getElem?_set_ne hne,
        List.getElem?_append_left hj, ← List.get?_eq_getElem?]
  · intro slots index hcase
    rcases hcase with hhole | hout
    · have hlt : index < slots.length := by
        by_contra hge
        rw [List.get?_eq_getElem?, List.getElem?_eq_none (by omega)] at hhole
        exact Option.noConfusion hhole
      rw [List.get?_eq_getElem?] at hhole
      simp [ChalkListLookup, Nat.not_le_of_lt hlt, hhole]
    · simp [ChalkListLookup, hout]

/-- Claim C5 witness: the spec's scenario, setting index 5 of a length-3
list to Integer 7, gives length 6, holes at 3 and 4 and the value at 5; and
looking up index 1 of `create-list(NULL, 3)` reports absent. -/
theorem c5_witness :
    (([some (.Integer 1), some (.Integer 2), some (.Integer 3)] :
        List (Option ChalkObject)).length ≤ 5)
    ∧ (ChalkListSetElement
        [some (.Integer 1), some (.Integer 2), some (.Integer 3)] 5
        (some (ChalkCreateInteger 7))).2.1.length = 6
    ∧ (ChalkListSetElement
        [some (.Integer 1), some (.Integer 2), some (.Integer 3)] 5
        (some (ChalkCreateInteger 7))).2.1.get? 3 = some none
    ∧ (ChalkListSetElement
        [some (.Integer 1), some (.Integer 2), some (.Integer 3)] 5
        (some (ChalkCreateInteger 7))).2.1.get? 4 = some none
    ∧ (ChalkListSetElement
        [some (.Integer 1), some (.Integer 2), some (.Integer 3)] 5
        (some (ChalkCreateInteger 7))).2.1.get? 5
        = some (some (ChalkCreateInteger 7))
    ∧ (ChalkListLookup [none, none, none] 1).1 = none := by
  have hmain := c5_list_set_growth
  refine ⟨by decide, ?_, ?_, ?_, ?_, ?_⟩
  · exact (hmain.1 _ 5 (ChalkCreateInteger 7) (by decide)).2.1
  · exact (hmain.1 _ 5 (ChalkCreateInteger 7) (by decide)).2.2.1 3 (by decide) (by decide)
  · exact (hmain.1 _ 5 (ChalkCreateInteger 7) (by decide)).2.2.1 4 (by decide) (by decide)
  · exact (hmain.1 _ 5 (ChalkCreateInteger 7) (by decide)).2.2.2.1
  · exact hmain.2.1 [none, none, none] 1 (Or.inl rfl)

/-- Claim C6: `ChalkDictSetElement` with a key whose kind is neither Integer
nor String reports EINVAL and performs nothing: the entry list, the
generation counter (and hence the live count) are returned unchanged and the
reference-count trace is empty. -/
theorem c6_dict_set_invalid_key
    (entries : List (ChalkObject × ChalkObject)) (generation : Nat)
    (key value : ChalkObject)
    (hkind : kindTag key ≠ 2 ∧ kindTag key ≠ 3) :
    ChalkDictSetElement entries generation key value
      = (EINVAL, entries, generation, []) := by
  have hinvalid : invalidDictKeyKind key = true := by
    cases key <;> simp_all [kindTag, invalidDictKeyKind]
  simp [ChalkDictSetElement, hinvalid]

/-- Claim C6 witness: a List-valued key is rejected and the one-entry
dictionary is left exactly as it was. -/
theorem c6_witness :
    (kindTag (ChalkObject.List []) ≠ 2 ∧ kindTag (ChalkObject.List []) ≠ 3)
    ∧ ChalkDictSetElement [(ChalkObject.String [97], ChalkObject.Integer 1)] 1
        (ChalkObject.List []) (ChalkObject.Integer 2)
      = (EINVAL, [(ChalkObject.String [97], ChalkObject.Integer 1)], 1, []) := by
  refine ⟨by decide, c6_dict_set_invalid_key _ _ _ _ (by decide)⟩

/-- Claim C7: copying a List produces a new list container whose slot array
is the very same slot array (each index holds the same element reference,
holes staying holes) and whose reference-count trace adds exactly one
reference per non-hole element, in slot order; sharing of the element
references is what makes mutation of a nested element visible through the
copy. -/
theorem c7_copy_list_shallow :
    ∀ (slots : List (Option ChalkObject)) (freshAddr : Nat),
      ChalkObjectCopy freshAddr (.List slots)
        = some (.List slots, slots.filterMap (fun s => s.map RefOp.addRef))
      ∧ (∀ o : ChalkObject,
          RefOp.addRef o ∈ slots.filterMap (fun s => s.map RefOp.addRef) ↔
            some o ∈ slots) := by
  intro slots freshAddr
  refine ⟨?_, ?_⟩
  · simp [ChalkObjectCopy, ChalkCreateList, List.take_length]
  · intro o
    simp [List.mem_filterMap, Option.map_eq_some']

/-- Claim C8: boolean coercion is false on Null, true on an Integer exactly
when its value is nonzero, true on a String exactly when its stored length
is nonzero, true on a List exactly when its slot count is nonzero, true on a
Dict exactly when it has at least one entry, and always true on a
Function. -/
theorem c8_boolean_coercion :
    ChalkObjectGetBooleanValue .Null = false
    ∧ (∀ value : Int,
        (ChalkObjectGetBooleanValue (.Integer value) = true ↔ value ≠ 0))
    ∧ (∀ bytes : List Nat,
        (ChalkObjectGetBooleanValue (.String bytes) = true ↔ bytes.length ≠ 0))
    ∧ (∀ slots : List (Option ChalkObject),
        (ChalkObjectGetBooleanValue (.List slots) = true ↔ slots.length ≠ 0))
    ∧ (∀ (entries : List (ChalkObject × ChalkObject)) (generation addr : Nat),
        (ChalkObjectGetBooleanValue (.Dict entries generation addr) = true ↔
          entries ≠ []))
    ∧ (∀ (arguments : Option ChalkObject) (body script addr : Nat),
        ChalkObjectGetBooleanValue (.Function arguments body script addr) = true) := by
  refine ⟨rfl, ?_, ?_, ?_, ?_, ?_⟩
  · intro value
    simp [ChalkObjectGetBooleanValue]
  · intro bytes
    simp [ChalkObjectGetBooleanValue]
  · intro slots
    simp [ChalkObjectGetBooleanValue]
  · intro entries generation addr
    simp [ChalkObjectGetBooleanValue, List.isEmpty_iff]
  · intro arguments body script addr
    rfl

/-- Claim C9: when both compared values are recursively hole-free, every
element access performed by the equal-length list comparison finds a live
value, so the comparison always produces a result (the modelled NULL
dereference `none` is unreachable); without that precondition the element
loop reaches a hole slot, e.g. on two equal-length lists that agree on a
live first element and both hold a hole at index 1. -/
theorem c9_hole_free_comparison :
    (∀ a b : ChalkObject, holeFree a = true → holeFree b = true →
      (ChalkCompareObjects a b).isSome = true)
    ∧ ChalkCompareObjects (.List [some (.Integer 1), none])
        (.List [some (.Integer 1), none]) = none := by
  constructor
  · intro a b ha hb
    exact (compareTotalAux (sizeOf a)).1 a b le_rfl ha hb
  · simp [ChalkCompareObjects, compareElements, kindTag]

/-- Claim C9 witness: two hole-free singleton lists compare to a result. -/
theorem c9_witness :
    holeFree (.List [some ChalkObject.Null]) = true
    ∧ (ChalkCompareObjects (.List [some ChalkObject.Null])
        (.List [some ChalkObject.Null])).isSome = true := by
  have hf : holeFree (.List [some ChalkObject.Null]) = true := by
    simp [holeFree, holeFreeElements]
  exact ⟨hf, c9_hole_free_comparison.1 _ _ hf hf⟩

/-- Claim C10: the `get` builtin accepts a Null-kind object as well as a
Dict; on a Null object, or on a Dict not containing the key, it succeeds and
returns the Null singleton with a reference added, and it reports EINVAL
exactly when the object kind is neither Dict (tag 4) nor Null (tag 1). -/
theorem c10_get_accepts_null :
    ∀ (object key : ChalkObject),
      (object = .Null →
        ChalkFunctionGet object key = (0, some .Null, [RefOp.addRef .Null]))
      ∧ (∀ (entries : List (ChalkObject × ChalkObject)) (generation addr : Nat),
          object = .Dict entries generation addr →
          ChalkDictLookup entries key = none →
          ChalkFunctionGet object key = (0, some .Null, [RefOp.addRef .Null]))
      ∧ ((ChalkFunctionGet object key).1 = EINVAL ↔
          (kindTag object ≠ 4 ∧ kindTag object ≠ 1)) := by
  intro object key
  refine ⟨?_, ?_, ?_⟩
  · rintro rfl
    simp [ChalkFunctionGet, kindTag, ChalkCreateNull]
  · rintro entries generation addr rfl hlookup
    simp [ChalkFunctionGet, kindTag, hlookup, ChalkCreateNull]
  · cases object
    case Dict entries generation addr =>
      cases h : ChalkDictLookup entries key <;>
        simp [ChalkFunctionGet, kindTag, EINVAL, ChalkCreateNull, h]
    all_goals simp [ChalkFunctionGet, kindTag, EINVAL, ChalkCreateNull]

/-- Claim C10 witness: `get` on Null and on an empty dictionary returns
Null with a reference added; `get` on an Integer reports EINVAL. -/
theorem c10_witness :
    ChalkFunctionGet .Null (.String [97])
      = (0, some .Null, [RefOp.addRef .Null])
    ∧ ChalkDictLookup [] (.String [97]) = none
    ∧ ChalkFunctionGet (.Dict [] 0 0) (.String [97])
      = (0, some .Null, [RefOp.addRef .Null])
    ∧ (ChalkFunctionGet (.Integer 5) (.String [97])).1 = EINVAL := by
  refine ⟨?_, rfl, ?_, ?_⟩
  · exact (c10_get_accepts_null .Null (.String [97])).1 rfl
  · exact (c10_get_accepts_null (.Dict [] 0 0) (.String [97])).2.1 [] 0 0 rfl rfl
  · exact (c10_get_accepts_null (.Integer 5) (.String [97])).2.2.mpr
      ⟨by decide, by decide⟩

end Chalk
